import Mathlib

/-!
Shallow embedding of the dependency-injection container
(`src/container/DIContainer.js`, exposed through `registerServices.js`).

The container holds three stores (`services`, `singletons`, `factories`,
all JavaScript `Map`s, modelled as association lists with in-place
replacement on `set`) plus a fresh-identifier supply `nextId` that models
JavaScript object identity: every invocation of a constructor or factory
function produces a `Value.obj` carrying a fresh `id`, so two values are
identity-equal in JavaScript exactly when they are equal in the model.

`resolve` in the source recurses through `createInstance` (which maps
`resolve` over the declared dependency names) with no termination guard,
so the embedding threads an explicit fuel counter; `.outOfFuel` marks a
run that would not have returned in the source.  Errors (`throw`) carry
the store state at the moment of the throw, since in JavaScript the
mutations performed before an exception persist.
-/

/-- Runtime values.  `atom` stands for a pre-built plain object handed to
`register` as-is (e.g. the loaded configuration); `obj tag id args` is the
result of invoking the constructor or factory function identified by
`tag` with the positional argument list `args`, at identity `id`. -/
inductive Value where
  | atom (n : Nat)
  | obj (tag : Nat) (id : Nat) (args : List Value)

/-- The two errors thrown by the container
(`Service '<name>' not registered` / `Factory '<name>' not registered`). -/
inductive ContainerError where
  | serviceNotRegistered (name : String)
  | factoryNotRegistered (name : String)
deriving DecidableEq, Repr

/-- A service implementation: either a constructible function/class
(`typeof implementation === 'function'`), identified by `tag`, or a plain
pre-built value (the `else` branch of `createInstance`). -/
inductive Implementation where
  | ctor (tag : Nat)
  | value (v : Value)

/-- The record stored by `DIContainer.register`. -/
structure ServiceConfig where
  implementation : Implementation
  singleton : Bool
  dependencies : List String
  factory : Bool

/-- The record stored by `DIContainer.registerFactory`: the factory
function (identified by `tag`) and its dependency names. -/
structure FactoryConfig where
  tag : Nat
  dependencies : List String

/-- The container state: the three `Map`s plus the fresh-identity supply. -/
structure DIContainer where
  services : List (String × ServiceConfig)
  singletons : List (String × Value)
  factories : List (String × FactoryConfig)
  nextId : Nat

/-- `Map.get`: the value bound to `name`, if any. -/
def mapFind {α : Type} : List (String × α) → String → Option α
  | [], _ => none
  | (k, v) :: rest, name => if k = name then some v else mapFind rest name

/-- `Map.set`: replace the binding of `name` in place, or append it. -/
def mapSet {α : Type} : List (String × α) → String → α → List (String × α)
  | [], name, v => [(name, v)]
  | (k, w) :: rest, name, v =>
    if k = name then (name, v) :: rest else (k, w) :: mapSet rest name v

/-- The `options` argument of `register`; absent fields fall back to the
defaults `singleton = false`, `dependencies = []`, `factory = false`. -/
structure RegisterOptions where
  singleton : Option Bool
  dependencies : Option (List String)
  factory : Option Bool

/-- `DIContainer.register`. -/
def register (s : DIContainer) (name : String) (implementation : Implementation)
    (options : RegisterOptions) : DIContainer :=
  let serviceConfig : ServiceConfig :=
    { implementation := implementation
      singleton := options.singleton.getD false
      dependencies := options.dependencies.getD []
      factory := options.factory.getD false }
  { s with services := mapSet s.services name serviceConfig }

/-- `DIContainer.registerSingleton`: `register` with `singleton = true`. -/
def registerSingleton (s : DIContainer) (name : String)
    (implementation : Implementation) (dependencies : List String) : DIContainer :=
  register s name implementation ⟨some true, some dependencies, none⟩

/-- `DIContainer.registerFactory`: stores into the factory table only. -/
def registerFactory (s : DIContainer) (name : String) (tag : Nat)
    (dependencies : List String) : DIContainer :=
  { s with factories := mapSet s.factories name ⟨tag, dependencies⟩ }

/-- Outcome of `resolve`/`createInstance`: a value plus the container state
after the call, an error plus the state at the throw, or fuel exhaustion
(the source would not have returned). -/
inductive ResolveResult where
  | ok (v : Value) (s : DIContainer)
  | error (e : ContainerError) (s : DIContainer)
  | outOfFuel (s : DIContainer)

/-- Outcome of resolving a dependency list. -/
inductive DepsResult where
  | ok (vs : List Value) (s : DIContainer)
  | error (e : ContainerError) (s : DIContainer)
  | outOfFuel (s : DIContainer)

/-- The container state a resolution left behind. -/
def ResolveResult.state : ResolveResult → DIContainer
  | .ok _ s => s
  | .error _ s => s
  | .outOfFuel s => s

/-- The container state a dependency-list resolution left behind. -/
def DepsResult.state : DepsResult → DIContainer
  | .ok _ s => s
  | .error _ s => s
  | .outOfFuel s => s

/-- Whether the run exhausted its fuel. -/
def ResolveResult.isOut : ResolveResult → Bool
  | .outOfFuel _ => true
  | _ => false

/-- Whether the dependency-list run exhausted its fuel. -/
def DepsResult.isOut : DepsResult → Bool
  | .outOfFuel _ => true
  | _ => false

mutual

/-- `DIContainer.resolve`: singleton-cache lookup, then descriptor lookup
(throwing `Service '<name>' not registered` on a miss), then construction,
caching the instance when the descriptor is singleton-flagged. -/
def resolve : Nat → DIContainer → String → ResolveResult
  | 0, s, _ => .outOfFuel s
  | fuel + 1, s, name =>
    match mapFind s.singletons name with
    | some v => .ok v s
    | none =>
      match mapFind s.services name with
      | none => .error (.serviceNotRegistered name) s
      | some serviceConfig =>
        match createInstance fuel s serviceConfig with
        | .ok inst s' =>
          if serviceConfig.singleton then
            .ok inst { s' with singletons := mapSet s'.singletons name inst }
          else
            .ok inst s'
        | r => r
termination_by fuel _s _n => (fuel, 0, 0)

/-- `DIContainer.createInstance`: for a constructible implementation,
resolve the declared dependencies in order and invoke it with them
positionally (the source's class/function distinction invokes with the
same argument list either way, so both are one `obj` construction here);
a plain pre-built value is returned unchanged. -/
def createInstance : Nat → DIContainer → ServiceConfig → ResolveResult
  | fuel, s, serviceConfig =>
    match serviceConfig.implementation with
    | .ctor tag =>
      match resolveDeps fuel s serviceConfig.dependencies with
      | .ok args s' => .ok (.obj tag s'.nextId args) { s' with nextId := s'.nextId + 1 }
      | .error e s' => .error e s'
      | .outOfFuel s' => .outOfFuel s'
    | .value v => .ok v s
termination_by fuel _s _c => (fuel, 2, 0)

/-- `dependencies.map(dep => this.resolve(dep))`: left-to-right resolution
of the declared dependency names, threading the container state. -/
def resolveDeps : Nat → DIContainer → List String → DepsResult
  | _, s, [] => .ok [] s
  | fuel, s, dep :: rest =>
    match resolve fuel s dep with
    | .ok v s' =>
      match resolveDeps fuel s' rest with
      | .ok vs s'' => .ok (v :: vs) s''
      | r => r
    | .error e s' => .error e s'
    | .outOfFuel s' => .outOfFuel s'
termination_by fuel _s ds => (fuel, 1, ds.length)

end

/-- `DIContainer.resolveFactory`: factory-table lookup (throwing
`Factory '<name>' not registered` on a miss), dependency resolution
through the same `resolve` recursion, then one invocation of the factory
function; the result is returned directly, never cached. -/
def resolveFactory (fuel : Nat) (s : DIContainer) (name : String) : ResolveResult :=
  match mapFind s.factories name with
  | none => .error (.factoryNotRegistered name) s
  | some factoryConfig =>
    match resolveDeps fuel s factoryConfig.dependencies with
    | .ok args s' => .ok (.obj factoryConfig.tag s'.nextId args) { s' with nextId := s'.nextId + 1 }
    | .error e s' => .error e s'
    | .outOfFuel s' => .outOfFuel s'

/-- `DIContainer.has`: membership in the service store or factory table. -/
def has (s : DIContainer) (name : String) : Bool :=
  (mapFind s.services name).isSome || (mapFind s.factories name).isSome

/-- `DIContainer.getRegisteredServices`: `Array.from(this.services.keys())`. -/
def getRegisteredServices (s : DIContainer) : List String :=
  s.services.map Prod.fst

/-- `DIContainer.clear`: empties all three stores. -/
def clear (s : DIContainer) : DIContainer :=
  { services := [], singletons := [], factories := [], nextId := s.nextId }

/-- Looking up the key just set returns the value just set. -/
theorem mapFind_mapSet_self {α : Type} (l : List (String × α)) (k : String) (v : α) :
    mapFind (mapSet l k v) k = some v := by
  induction l with
  | nil => simp [mapFind, mapSet]
  | cons p rest ih =>
    obtain ⟨k', w⟩ := p
    by_cases h : k' = k
    · simp [mapFind, mapSet, h]
    · simp [mapFind, mapSet, h, ih]

/-- Setting one key leaves every other key's binding unchanged. -/
theorem mapFind_mapSet_ne {α : Type} (l : List (String × α)) (k n : String) (v : α)
    (h : n ≠ k) : mapFind (mapSet l k v) n = mapFind l n := by
  have hkn : ¬ k = n := fun hc => h hc.symm
  induction l with
  | nil => simp [mapFind, mapSet, hkn]
  | cons p rest ih =>
    obtain ⟨k', w⟩ := p
    by_cases hk : k' = k
    · subst hk
      simp [mapFind, mapSet, hkn]
    · simp only [mapSet, if_neg hk, mapFind]
      by_cases hn : k' = n
      · simp [hn]
      · simp [hn, ih]

/-- What one `resolve`/`createInstance` call can do to the stores: the
service store and factory table are untouched, the identity supply only
grows, existing singleton-cache entries survive unchanged, and a name
whose descriptor is not singleton-flagged never gains a cache entry. -/
def Pres (s s' : DIContainer) : Prop :=
  s'.services = s.services ∧
  s'.factories = s.factories ∧
  s.nextId ≤ s'.nextId ∧
  (∀ n v, mapFind s.singletons n = some v → mapFind s'.singletons n = some v) ∧
  (∀ n cfg, mapFind s.services n = some cfg → cfg.singleton = false →
    mapFind s.singletons n = none → mapFind s'.singletons n = none)

theorem pres_refl (s : DIContainer) : Pres s s :=
  ⟨rfl, rfl, Nat.le_refl _, fun _ _ h => h, fun _ _ _ _ h => h⟩

theorem pres_trans {s s' s'' : DIContainer} (h1 : Pres s s') (h2 : Pres s' s'') :
    Pres s s'' := by
  obtain ⟨a1, b1, c1, d1, e1⟩ := h1
  obtain ⟨a2, b2, c2, d2, e2⟩ := h2
  refine ⟨a2.trans a1, b2.trans b1, c1.trans c2, fun n v h => d2 n v (d1 n v h), ?_⟩
  intro n cfg hsvc hflag hnone
  exact e2 n cfg (a1 ▸ hsvc) hflag (e1 n cfg hsvc hflag hnone)

/-- Bumping the identity supply preserves `Pres`. -/
theorem pres_bump {s s' : DIContainer} (h : Pres s s') :
    Pres s { s' with nextId := s'.nextId + 1 } := by
  obtain ⟨a, b, c, d, e⟩ := h
  exact ⟨a, b, c.trans (Nat.le_succ _), d, e⟩

/-- Caching a freshly built singleton instance preserves `Pres` from the
state where that name was still uncached. -/
theorem pres_cache_set {s s' : DIContainer} {name : String} {inst : Value}
    {cfg : ServiceConfig} (hp : Pres s s')
    (hmiss : mapFind s.singletons name = none)
    (hsvc : mapFind s.services name = some cfg) (hsing : cfg.singleton = true) :
    Pres s { s' with singletons := mapSet s'.singletons name inst } := by
  obtain ⟨a, b, c, d, e⟩ := hp
  refine ⟨a, b, c, ?_, ?_⟩
  · intro n v h
    have hne : n ≠ name := by
      intro hEq
      rw [hEq, hmiss] at h
      exact Option.noConfusion h
    rw [mapFind_mapSet_ne _ _ _ _ hne]
    exact d n v h
  · intro n cfg' hsvc' hflag hnone
    by_cases hne : n = name
    · subst hne
      rw [hsvc] at hsvc'
      cases hsvc'
      rw [hflag] at hsing
      exact Bool.noConfusion hsing
    · rw [mapFind_mapSet_ne _ _ _ _ hne]
      exact e n cfg' hsvc' hflag hnone

/-- `resolve` at fuel `fuel + 1` preserves the stores, assuming
`createInstance` does at fuel `fuel`. -/
theorem resolve_pres_step (fuel : Nat)
    (ih : ∀ s cfg, Pres s (createInstance fuel s cfg).state) :
    ∀ s name, Pres s (resolve (fuel + 1) s name).state := by
  intro s name
  simp only [resolve]
  split
  · exact pres_refl s
  · rename_i hcache
    split
    · exact pres_refl s
    · rename_i serviceConfig hsvc
      split
      · rename_i inst s' hci
        have hp : Pres s s' := by
          have h := ih s serviceConfig
          rw [hci] at h
          exact h
        split
        · rename_i hsing
          exact pres_cache_set hp hcache hsvc hsing
        · exact hp
      · exact ih s serviceConfig

/-- Dependency-list resolution preserves the stores, assuming `resolve`
does at the same fuel. -/
theorem resolveDeps_pres_step (fuel : Nat)
    (ih : ∀ s name, Pres s (resolve fuel s name).state) :
    ∀ ds s, Pres s (resolveDeps fuel s ds).state := by
  intro ds
  induction ds with
  | nil =>
    intro s
    simp only [resolveDeps]
    exact pres_refl s
  | cons d rest ihd =>
    intro s
    simp only [resolveDeps]
    split
    · rename_i v s' hr
      have h1 : Pres s s' := by
        have h := ih s d
        rw [hr] at h
        exact h
      split
      · rename_i vs s'' hrest
        have h2 : Pres s' s'' := by
          have h := ihd s'
          rw [hrest] at h
          exact h
        exact pres_trans h1 h2
      · exact pres_trans h1 (ihd s')
    · rename_i e s' hr
      have h := ih s d
      rw [hr] at h
      exact h
    · rename_i s' hr
      have h := ih s d
      rw [hr] at h
      exact h

/-- `createInstance` preserves the stores, assuming dependency-list
resolution does at the same fuel. -/
theorem createInstance_pres_step (fuel : Nat)
    (ih : ∀ ds s, Pres s (resolveDeps fuel s ds).state) :
    ∀ s cfg, Pres s (createInstance fuel s cfg).state := by
  intro s cfg
  simp only [createInstance]
  split
  · rename_i tag himpl
    split
    · rename_i args s' hd
      have h := ih cfg.dependencies s
      rw [hd] at h
      exact pres_bump h
    · rename_i e s' hd
      have h := ih cfg.dependencies s
      rw [hd] at h
      exact h
    · rename_i s' hd
      have h := ih cfg.dependencies s
      rw [hd] at h
      exact h
  · exact pres_refl s

/-- Joint store-preservation for the three mutually recursive functions. -/
theorem pres_all : ∀ fuel : Nat,
    (∀ s name, Pres s (resolve fuel s name).state) ∧
    (∀ ds s, Pres s (resolveDeps fuel s ds).state) ∧
    (∀ s cfg, Pres s (createInstance fuel s cfg).state) := by
  intro fuel
  induction fuel with
  | zero =>
    have hr : ∀ s name, Pres s (resolve 0 s name).state := by
      intro s name
      simp only [resolve]
      exact pres_refl s
    have hd := resolveDeps_pres_step 0 hr
    exact ⟨hr, hd, createInstance_pres_step 0 hd⟩
  | succ fuel ih =>
    have hr := resolve_pres_step fuel ih.2.2
    have hd := resolveDeps_pres_step (fuel + 1) hr
    exact ⟨hr, hd, createInstance_pres_step (fuel + 1) hd⟩

theorem resolve_pres (fuel : Nat) (s : DIContainer) (name : String) :
    Pres s (resolve fuel s name).state :=
  (pres_all fuel).1 s name

theorem resolveDeps_pres (fuel : Nat) (s : DIContainer) (ds : List String) :
    Pres s (resolveDeps fuel s ds).state :=
  (pres_all fuel).2.1 ds s

/-- `resolveFactory` preserves the stores as well. -/
theorem resolveFactory_pres (fuel : Nat) (s : DIContainer) (name : String) :
    Pres s (resolveFactory fuel s name).state := by
  simp only [resolveFactory]
  split
  · exact pres_refl s
  · rename_i fc hf
    split
    · rename_i args s' hd
      have h := resolveDeps_pres fuel s fc.dependencies
      rw [hd] at h
      exact pres_bump h
    · rename_i e s' hd
      have h := resolveDeps_pres fuel s fc.dependencies
      rw [hd] at h
      exact h
    · rename_i s' hd
      have h := resolveDeps_pres fuel s fc.dependencies
      rw [hd] at h
      exact h

/-- `resolve` is fuel-monotone at `fuel + 1`, assuming `createInstance`
is at `fuel`: a run that did not exhaust its fuel is unchanged by more. -/
theorem resolve_mono_step (fuel : Nat)
    (ih : ∀ s cfg, (createInstance fuel s cfg).isOut = false →
      createInstance (fuel + 1) s cfg = createInstance fuel s cfg) :
    ∀ s name, (resolve (fuel + 1) s name).isOut = false →
      resolve (fuel + 2) s name = resolve (fuel + 1) s name := by
  intro s name hout
  cases hcache : mapFind s.singletons name with
  | some v => simp [resolve, hcache]
  | none =>
    cases hsvc : mapFind s.services name with
    | none => simp [resolve, hcache, hsvc]
    | some cfg =>
      have hciOut : (createInstance fuel s cfg).isOut = false := by
        simp only [resolve, hcache, hsvc] at hout
        cases hci : createInstance fuel s cfg with
        | ok v s' => simp [ResolveResult.isOut]
        | error e s' => simp [ResolveResult.isOut]
        | outOfFuel s' =>
          rw [hci] at hout
          simp [ResolveResult.isOut] at hout
      simp only [resolve, hcache, hsvc, ih s cfg hciOut]

/-- Dependency-list resolution is fuel-monotone, assuming `resolve` is at
the same fuel. -/
theorem resolveDeps_mono_step (fuel : Nat)
    (ih : ∀ s name, (resolve fuel s name).isOut = false →
      resolve (fuel + 1) s name = resolve fuel s name) :
    ∀ ds s, (resolveDeps fuel s ds).isOut = false →
      resolveDeps (fuel + 1) s ds = resolveDeps fuel s ds := by
  intro ds
  induction ds with
  | nil =>
    intro s h
    simp [resolveDeps]
  | cons d rest ihd =>
    intro s hout
    cases hr : resolve fuel s d with
    | ok v s' =>
      have h1 := ih s d (by simp [hr, ResolveResult.isOut])
      cases hrest : resolveDeps fuel s' rest with
      | ok vs s'' =>
        have h2 := ihd s' (by simp [hrest, DepsResult.isOut])
        simp [resolveDeps, hr, hrest, h1, h2]
      | error e s'' =>
        have h2 := ihd s' (by simp [hrest, DepsResult.isOut])
        simp [resolveDeps, hr, hrest, h1, h2]
      | outOfFuel s'' =>
        exfalso
        simp only [resolveDeps, hr, hrest] at hout
        simp [DepsResult.isOut] at hout
    | error e s' =>
      have h1 := ih s d (by simp [hr, ResolveResult.isOut])
      simp [resolveDeps, hr, h1]
    | outOfFuel s' =>
      exfalso
      simp only [resolveDeps, hr] at hout
      simp [DepsResult.isOut] at hout

/-- `createInstance` is fuel-monotone, assuming dependency-list
resolution is at the same fuel. -/
theorem createInstance_mono_step (fuel : Nat)
    (ih : ∀ ds s, (resolveDeps fuel s ds).isOut = false →
      resolveDeps (fuel + 1) s ds = resolveDeps fuel s ds) :
    ∀ s cfg, (createInstance fuel s cfg).isOut = false →
      createInstance (fuel + 1) s cfg = createInstance fuel s cfg := by
  intro s cfg hout
  cases himpl : cfg.implementation with
  | value v => simp [createInstance, himpl]
  | ctor tag =>
    cases hd : resolveDeps fuel s cfg.dependencies with
    | ok args s' =>
      have h := ih cfg.dependencies s (by simp [hd, DepsResult.isOut])
      simp [createInstance, himpl, hd, h]
    | error e s' =>
      have h := ih cfg.dependencies s (by simp [hd, DepsResult.isOut])
      simp [createInstance, himpl, hd, h]
    | outOfFuel s' =>
      exfalso
      simp only [createInstance, himpl, hd] at hout
      simp [ResolveResult.isOut] at hout

/-- Joint fuel-monotonicity for the three mutually recursive functions. -/
theorem mono_all : ∀ fuel : Nat,
    (∀ s name, (resolve fuel s name).isOut = false →
      resolve (fuel + 1) s name = resolve fuel s name) ∧
    (∀ ds s, (resolveDeps fuel s ds).isOut = false →
      resolveDeps (fuel + 1) s ds = resolveDeps fuel s ds) ∧
    (∀ s cfg, (createInstance fuel s cfg).isOut = false →
      createInstance (fuel + 1) s cfg = createInstance fuel s cfg) := by
  intro fuel
  induction fuel with
  | zero =>
    have hr : ∀ s name, (resolve 0 s name).isOut = false →
        resolve 1 s name = resolve 0 s name := by
      intro s name h
      simp [resolve, ResolveResult.isOut] at h
    have hd := resolveDeps_mono_step 0 hr
    exact ⟨hr, hd, createInstance_mono_step 0 hd⟩
  | succ fuel ih =>
    have hr := resolve_mono_step fuel ih.2.2
    have hd := resolveDeps_mono_step (fuel + 1) hr
    exact ⟨hr, hd, createInstance_mono_step (fuel + 1) hd⟩

/-- Raising the fuel of a non-exhausted `resolve` run changes nothing. -/
theorem resolve_mono_le {fuel fuel' : Nat} (h : fuel ≤ fuel') (s : DIContainer)
    (name : String) (hout : (resolve fuel s name).isOut = false) :
    resolve fuel' s name = resolve fuel s name := by
  induction fuel', h using Nat.le_induction with
  | base => rfl
  | succ f hf ihf =>
    have hOutF : (resolve f s name).isOut = false := by rw [ihf]; exact hout
    rw [(mono_all f).1 s name hOutF, ihf]

/-- Raising the fuel of a non-exhausted dependency-list run changes
nothing. -/
theorem resolveDeps_mono_le {fuel fuel' : Nat} (h : fuel ≤ fuel')
    (s : DIContainer) (ds : List String)
    (hout : (resolveDeps fuel s ds).isOut = false) :
    resolveDeps fuel' s ds = resolveDeps fuel s ds := by
  induction fuel', h using Nat.le_induction with
  | base => rfl
  | succ f hf ihf =>
    have hOutF : (resolveDeps f s ds).isOut = false := by rw [ihf]; exact hout
    rw [(mono_all f).2.1 ds s hOutF, ihf]

/-- A successful `resolve` stays successful and identical at any larger
fuel. -/
theorem resolve_ok_mono {fuel fuel' : Nat} (h : fuel ≤ fuel')
    {s s' : DIContainer} {name : String} {v : Value}
    (hok : resolve fuel s name = .ok v s') : resolve fuel' s name = .ok v s' := by
  rw [resolve_mono_le h s name (by simp [hok, ResolveResult.isOut]), hok]

/-- A successful dependency-list run stays successful and identical at
any larger fuel. -/
theorem resolveDeps_ok_mono {fuel fuel' : Nat} (h : fuel ≤ fuel')
    {s s' : DIContainer} {ds : List String} {vs : List Value}
    (hok : resolveDeps fuel s ds = .ok vs s') :
    resolveDeps fuel' s ds = .ok vs s' := by
  rw [resolveDeps_mono_le h s ds (by simp [hok, DepsResult.isOut]), hok]

/-- Any error carried by a resolution outcome is `serviceNotRegistered m`
for a name `m` that, in the state at the throw, has no descriptor and no
cache entry. -/
def ResolveResult.errSound : ResolveResult → Prop
  | .error e s' => ∃ m, e = .serviceNotRegistered m ∧
      mapFind s'.services m = none ∧ mapFind s'.singletons m = none
  | _ => True

/-- Error soundness for dependency-list outcomes. -/
def DepsResult.errSound : DepsResult → Prop
  | .error e s' => ∃ m, e = .serviceNotRegistered m ∧
      mapFind s'.services m = none ∧ mapFind s'.singletons m = none
  | _ => True

/-- `resolve` errors are sound at `fuel + 1` if `createInstance` errors
are at `fuel`. -/
theorem resolve_errSound_step (fuel : Nat)
    (ih : ∀ s cfg, (createInstance fuel s cfg).errSound) :
    ∀ s name, (resolve (fuel + 1) s name).errSound := by
  intro s name
  simp only [resolve]
  split
  · trivial
  · rename_i hcache
    split
    · rename_i hsvc
      exact ⟨name, rfl, hsvc, hcache⟩
    · rename_i cfg hsvc
      split
      · rename_i inst s' hci
        split
        · trivial
        · trivial
      · exact ih s cfg

/-- Dependency-list errors are sound if `resolve` errors are at the same
fuel. -/
theorem resolveDeps_errSound_step (fuel : Nat)
    (ih : ∀ s name, (resolve fuel s name).errSound) :
    ∀ ds s, (resolveDeps fuel s ds).errSound := by
  intro ds
  induction ds with
  | nil =>
    intro s
    simp only [resolveDeps]
    trivial
  | cons d rest ihd =>
    intro s
    simp only [resolveDeps]
    split
    · rename_i v s' hr
      split
      · trivial
      · exact ihd s'
    · rename_i e s' hr
      have h := ih s d
      rw [hr] at h
      exact h
    · trivial

/-- `createInstance` errors are sound if dependency-list errors are at
the same fuel. -/
theorem createInstance_errSound_step (fuel : Nat)
    (ih : ∀ ds s, (resolveDeps fuel s ds).errSound) :
    ∀ s cfg, (createInstance fuel s cfg).errSound := by
  intro s cfg
  simp only [createInstance]
  split
  · rename_i tag himpl
    split
    · trivial
    · rename_i e s' hd
      have h := ih cfg.dependencies s
      rw [hd] at h
      exact h
    · trivial
  · trivial

/-- Joint error soundness for the three mutually recursive functions. -/
theorem errSound_all : ∀ fuel : Nat,
    (∀ s name, (resolve fuel s name).errSound) ∧
    (∀ ds s, (resolveDeps fuel s ds).errSound) ∧
    (∀ s cfg, (createInstance fuel s cfg).errSound) := by
  intro fuel
  induction fuel with
  | zero =>
    have hr : ∀ s name, (resolve 0 s name).errSound := by
      intro s name
      simp only [resolve]
      trivial
    have hd := resolveDeps_errSound_step 0 hr
    exact ⟨hr, hd, createInstance_errSound_step 0 hd⟩
  | succ fuel ih =>
    have hr := resolve_errSound_step fuel ih.2.2
    have hd := resolveDeps_errSound_step (fuel + 1) hr
    exact ⟨hr, hd, createInstance_errSound_step (fuel + 1) hd⟩

/-- An error returned by `resolve` is always `ServiceNotRegistered m` for
a transitively demanded name `m` with no descriptor and no cache entry. -/
theorem resolve_error_sound {fuel : Nat} {s s' : DIContainer} {name : String}
    {e : ContainerError} (h : resolve fuel s name = .error e s') :
    ∃ m, e = .serviceNotRegistered m ∧ mapFind s'.services m = none ∧
      mapFind s'.singletons m = none := by
  have hs := (errSound_all fuel).1 s name
  rw [h] at hs
  exact hs

/-- As `resolve_error_sound`, for a dependency-list run. -/
theorem resolveDeps_error_sound {fuel : Nat} {s s' : DIContainer}
    {ds : List String} {e : ContainerError}
    (h : resolveDeps fuel s ds = .error e s') :
    ∃ m, e = .serviceNotRegistered m ∧ mapFind s'.services m = none ∧
      mapFind s'.singletons m = none := by
  have hs := (errSound_all fuel).2.1 ds s
  rw [h] at hs
  exact hs

/-- The part of `Pres` the termination argument needs: the service store
unchanged and no singleton-cache entry lost. -/
def Extends (s s' : DIContainer) : Prop :=
  s'.services = s.services ∧
  (∀ n v, mapFind s.singletons n = some v → mapFind s'.singletons n = some v)

theorem extends_refl (s : DIContainer) : Extends s s := ⟨rfl, fun _ _ h => h⟩

theorem extends_trans {s s' s'' : DIContainer} (h1 : Extends s s')
    (h2 : Extends s' s'') : Extends s s'' :=
  ⟨h2.1.trans h1.1, fun n v h => h2.2 n v (h1.2 n v h)⟩

theorem pres_extends {s s' : DIContainer} (h : Pres s s') : Extends s s' :=
  ⟨h.1, h.2.2.2.1⟩

/-- A name is resolvable when it is cached, or registered with a pre-built
value, or registered with a constructible implementation all of whose
declared dependencies are in turn resolvable.  The well-founded derivation
captures exactly the claim's side condition: the declared dependency
graph, restricted to the names the resolution demands and not served from
the cache, is acyclic, and every such name is registered or cached. -/
inductive Resolvable (s : DIContainer) : String → Prop where
  | cached (n : String) (v : Value) (h : mapFind s.singletons n = some v) :
      Resolvable s n
  | valueImpl (n : String) (cfg : ServiceConfig) (v : Value)
      (h : mapFind s.services n = some cfg)
      (hv : cfg.implementation = .value v) : Resolvable s n
  | ctorImpl (n : String) (cfg : ServiceConfig) (tag : Nat)
      (h : mapFind s.services n = some cfg)
      (hc : cfg.implementation = .ctor tag)
      (hdeps : ∀ d, d ∈ cfg.dependencies → Resolvable s d) : Resolvable s n

/-- Resolvability survives cache growth (the service store unchanged). -/
theorem resolvable_extends {s s' : DIContainer} {n : String}
    (h : Resolvable s n) (he : Extends s s') : Resolvable s' n := by
  induction h with
  | cached n v hv => exact .cached n v (he.2 n v hv)
  | valueImpl n cfg v hsvc hv =>
    refine .valueImpl n cfg v ?_ hv
    rw [he.1]
    exact hsvc
  | ctorImpl n cfg tag hsvc hc hdeps ih =>
    refine .ctorImpl n cfg tag ?_ hc (fun d hd => ih d hd)
    rw [he.1]
    exact hsvc

/-- A dependency list all of whose names resolve (in every cache
extension) itself resolves, for sufficient fuel. -/
theorem resolveDeps_terminates (s : DIContainer) (ds : List String)
    (ih : ∀ d, d ∈ ds → ∀ s', Extends s s' →
      ∃ fuel v s'', resolve fuel s' d = .ok v s'') :
    ∀ s', Extends s s' →
      ∃ fuel args s'', resolveDeps fuel s' ds = .ok args s'' := by
  induction ds with
  | nil =>
    intro s' he
    exact ⟨0, [], s', by simp [resolveDeps]⟩
  | cons d rest ihd =>
    intro s' he
    obtain ⟨fuel1, v, s1, h1⟩ := ih d (by simp) s' he
    have he1 : Extends s s1 := by
      have hp := resolve_pres fuel1 s' d
      rw [h1] at hp
      exact extends_trans he (pres_extends hp)
    obtain ⟨fuel2, args, s2, h2⟩ :=
      ihd (fun d' hd' => ih d' (List.mem_cons_of_mem d hd')) s1 he1
    refine ⟨max fuel1 fuel2, v :: args, s2, ?_⟩
    have h1' := resolve_ok_mono (Nat.le_max_left fuel1 fuel2) h1
    have h2' := resolveDeps_ok_mono (Nat.le_max_right fuel1 fuel2) h2
    simp [resolveDeps, h1', h2']

/-- Termination: a resolvable name resolves to a value for sufficient
fuel, in the original state and in every cache extension of it. -/
theorem resolve_terminates {s : DIContainer} {n : String} (h : Resolvable s n) :
    ∀ s', Extends s s' → ∃ fuel v s'', resolve fuel s' n = .ok v s'' := by
  induction h with
  | cached n v hv =>
    intro s' he
    exact ⟨1, v, s', by simp [resolve, he.2 n v hv]⟩
  | valueImpl n cfg v hsvc hv =>
    intro s' he
    cases hcache : mapFind s'.singletons n with
    | some w => exact ⟨1, w, s', by simp [resolve, hcache]⟩
    | none =>
      have hsvc' : mapFind s'.services n = some cfg := by
        rw [he.1]
        exact hsvc
      cases hsing : cfg.singleton with
      | true =>
        exact ⟨1, v, { s' with singletons := mapSet s'.singletons n v },
          by simp [resolve, hcache, hsvc', createInstance, hv, hsing]⟩
      | false =>
        exact ⟨1, v, s',
          by simp [resolve, hcache, hsvc', createInstance, hv, hsing]⟩
  | ctorImpl n cfg tag hsvc hc hdeps ih =>
    intro s' he
    obtain ⟨fuelD, args, sD, hD⟩ :=
      resolveDeps_terminates s cfg.dependencies ih s' he
    cases hcache : mapFind s'.singletons n with
    | some w => exact ⟨1, w, s', by simp [resolve, hcache]⟩
    | none =>
      have hsvc' : mapFind s'.services n = some cfg := by
        rw [he.1]
        exact hsvc
      cases hsing : cfg.singleton with
      | true =>
        refine ⟨fuelD + 1, .obj tag sD.nextId args,
          { sD with
            nextId := sD.nextId + 1
            singletons := mapSet sD.singletons n (.obj tag sD.nextId args) }, ?_⟩
        simp [resolve, hcache, hsvc', createInstance, hc, hD, hsing]
      | false =>
        refine ⟨fuelD + 1, .obj tag sD.nextId args,
          { sD with nextId := sD.nextId + 1 }, ?_⟩
        simp [resolve, hcache, hsvc', createInstance, hc, hD, hsing]

/-- The claim's cyclic registration: `A` depends on `B` and `B` on `A`,
both constructible, neither cached. -/
def cycState : DIContainer :=
  ⟨[("A", ⟨.ctor 0, false, ["B"], false⟩), ("B", ⟨.ctor 1, false, ["A"], false⟩)],
   [], [], 0⟩

/-- With the cyclic graph, resolution of either name exhausts any amount
of fuel without returning, erroring, or changing the stores. -/
theorem cyc_diverges : ∀ fuel : Nat,
    resolve fuel cycState "A" = .outOfFuel cycState ∧
    resolve fuel cycState "B" = .outOfFuel cycState := by
  intro fuel
  induction fuel with
  | zero => exact ⟨by simp [resolve], by simp [resolve]⟩
  | succ f ih =>
    obtain ⟨ihA, ihB⟩ := ih
    simp only [cycState] at ihA ihB
    constructor
    · simp [resolve, cycState, mapFind, createInstance, resolveDeps, ihB]
    · simp [resolve, cycState, mapFind, createInstance, resolveDeps, ihA]

/-- The operations that may occur between two resolutions: registrations
of every kind and resolutions of every kind. -/
inductive Op where
  | opRegister (name : String) (implementation : Implementation)
      (options : RegisterOptions)
  | opRegisterSingleton (name : String) (implementation : Implementation)
      (deps : List String)
  | opRegisterFactory (name : String) (tag : Nat) (deps : List String)
  | opResolve (fuel : Nat) (name : String)
  | opResolveFactory (fuel : Nat) (name : String)

/-- The container state after performing one operation. -/
def applyOp (s : DIContainer) : Op → DIContainer
  | .opRegister n i o => register s n i o
  | .opRegisterSingleton n i d => registerSingleton s n i d
  | .opRegisterFactory n t d => registerFactory s n t d
  | .opResolve f n => (resolve f s n).state
  | .opResolveFactory f n => (resolveFactory f s n).state

/-- The container state after a sequence of operations. -/
def runOps : DIContainer → List Op → DIContainer
  | s, [] => s
  | s, op :: rest => runOps (applyOp s op) rest

/-- No single operation removes or replaces an existing singleton-cache
entry. -/
theorem applyOp_keeps_cache {s : DIContainer} {n : String} {v : Value}
    (h : mapFind s.singletons n = some v) (op : Op) :
    mapFind (applyOp s op).singletons n = some v := by
  cases op with
  | opRegister name impl opts => exact h
  | opRegisterSingleton name impl deps => exact h
  | opRegisterFactory name tag deps => exact h
  | opResolve fuel name => exact (resolve_pres fuel s name).2.2.2.1 n v h
  | opResolveFactory fuel name =>
    exact (resolveFactory_pres fuel s name).2.2.2.1 n v h

/-- No sequence of registrations and resolutions removes or replaces an
existing singleton-cache entry. -/
theorem runOps_keeps_cache {s : DIContainer} {n : String} {v : Value}
    (h : mapFind s.singletons n = some v) (ops : List Op) :
    mapFind (runOps s ops).singletons n = some v := by
  induction ops generalizing s with
  | nil => exact h
  | cons op rest ih => exact ih (applyOp_keeps_cache h op)

/-- A successful `resolve` of a singleton-flagged name leaves the cache
holding exactly the returned instance. -/
theorem resolve_ok_caches {fuel : Nat} {s s1 : DIContainer} {name : String}
    {cfg : ServiceConfig} {v : Value}
    (hsvc : mapFind s.services name = some cfg) (hsing : cfg.singleton = true)
    (hok : resolve fuel s name = .ok v s1) :
    mapFind s1.singletons name = some v := by
  cases fuel with
  | zero => simp [resolve] at hok
  | succ f =>
    simp only [resolve] at hok
    cases hcache : mapFind s.singletons name with
    | some w =>
      simp only [hcache] at hok
      injection hok with hv hs
      rw [← hs, ← hv]
      exact hcache
    | none =>
      simp only [hcache, hsvc] at hok
      cases hci : createInstance f s cfg with
      | ok inst s' =>
        simp only [hci, hsing, if_true] at hok
        injection hok with hv hs
        rw [← hs, ← hv]
        exact mapFind_mapSet_self _ _ _
      | error e s' => simp [hci] at hok
      | outOfFuel s' => simp [hci] at hok

/-- Shape of a successful transient (non-singleton, constructible)
resolution: a freshly constructed object whose identity is the last one
drawn, with the identity supply bumped just past it. -/
theorem resolve_transient_shape {fuel : Nat} {s s1 : DIContainer}
    {name : String} {cfg : ServiceConfig} {tag : Nat} {v : Value}
    (hsvc : mapFind s.services name = some cfg)
    (hsing : cfg.singleton = false)
    (himpl : cfg.implementation = .ctor tag)
    (hcache : mapFind s.singletons name = none)
    (h : resolve fuel s name = .ok v s1) :
    ∃ (args : List Value) (sd : DIContainer), v = .obj tag sd.nextId args ∧
      s1 = { sd with nextId := sd.nextId + 1 } ∧ s.nextId ≤ sd.nextId := by
  cases fuel with
  | zero => simp [resolve] at h
  | succ f =>
    simp only [resolve, hcache, hsvc, createInstance, himpl] at h
    cases hd : resolveDeps f s cfg.dependencies with
    | ok args sd =>
      simp only [hd, hsing, Bool.false_eq_true, if_false] at h
      injection h with hv hs
      have hp := resolveDeps_pres f s cfg.dependencies
      rw [hd] at hp
      exact ⟨args, sd, hv.symm, hs.symm, hp.2.2.1⟩
    | error e sd => simp [hd] at h
    | outOfFuel sd => simp [hd] at h

/-- C1: for a name whose descriptor is singleton-flagged, once one
`resolve` call has returned an instance, any later `resolve` of that name
returns the identical instance without reconstruction (and without
touching the state), no matter which registrations and resolutions happen
in between: the first resolution cached the instance, no operation evicts
it, and the cache hit returns immediately. -/
theorem c1_singleton_identity (s : DIContainer) (name : String)
    (cfg : ServiceConfig) (fuel : Nat) (v : Value) (s1 : DIContainer)
    (hreg : mapFind s.services name = some cfg) (hsing : cfg.singleton = true)
    (hres : resolve fuel s name = .ok v s1) (ops : List Op) (fuel2 : Nat) :
    resolve (fuel2 + 1) (runOps s1 ops) name = .ok v (runOps s1 ops) := by
  have hcache : mapFind (runOps s1 ops).singletons name = some v :=
    runOps_keeps_cache (resolve_ok_caches hreg hsing hres) ops
  simp [resolve, hcache]

def c1wBase : DIContainer :=
  registerSingleton ⟨[], [], [], 0⟩ "config" (.value (.atom 1)) []

def c1wCached : DIContainer := { c1wBase with singletons := [("config", .atom 1)] }

def c1ops : List Op :=
  [.opRegister "config" (.ctor 9) ⟨none, none, none⟩, .opResolve 1 "other"]

theorem c1_singleton_identity_witness :
    resolve 1 (runOps c1wCached c1ops) "config" =
      .ok (.atom 1) (runOps c1wCached c1ops) :=
  c1_singleton_identity c1wBase "config" ⟨.value (.atom 1), true, [], false⟩ 1
    (.atom 1) c1wCached
    (by simp [c1wBase, registerSingleton, register, mapFind, mapSet])
    rfl
    (by simp [c1wBase, c1wCached, registerSingleton, register, resolve,
      createInstance, mapFind, mapSet])
    c1ops 0

/-- C2 (amended): for a name registered non-singleton with a
*constructible* implementation, two successive `resolve` calls return
distinct (not identity-equal) instances — each call re-resolves the
dependencies and constructs a fresh object.  (As stated over *every*
non-singleton registration the claim fails: a descriptor holding a plain
pre-built value returns that same value, identity-equal, on both calls —
see the counterexample.) -/
theorem c2_transient_freshness (s s1 s2 : DIContainer) (name : String)
    (cfg : ServiceConfig) (tag : Nat) (v1 v2 : Value) (fuel1 fuel2 : Nat)
    (hsvc : mapFind s.services name = some cfg)
    (hsing : cfg.singleton = false)
    (himpl : cfg.implementation = .ctor tag)
    (hcache : mapFind s.singletons name = none)
    (h1 : resolve fuel1 s name = .ok v1 s1)
    (h2 : resolve fuel2 s1 name = .ok v2 s2) :
    v1 ≠ v2 ∧
    ∃ (id1 : Nat) (args1 : List Value) (id2 : Nat) (args2 : List Value),
      v1 = .obj tag id1 args1 ∧ v2 = .obj tag id2 args2 ∧ id1 ≠ id2 := by
  obtain ⟨args1, sd1, hv1, hs1, hb1⟩ :=
    resolve_transient_shape hsvc hsing himpl hcache h1
  have hp0 := resolve_pres fuel1 s name
  rw [h1] at hp0
  have hp1 : Pres s s1 := hp0
  have hsvc1 : mapFind s1.services name = some cfg := by
    rw [hp1.1]
    exact hsvc
  have hcache1 : mapFind s1.singletons name = none :=
    hp1.2.2.2.2 name cfg hsvc hsing hcache
  obtain ⟨args2, sd2, hv2, hs2, hb2⟩ :=
    resolve_transient_shape hsvc1 hsing himpl hcache1 h2
  have hs1n : s1.nextId = sd1.nextId + 1 := by rw [hs1]
  have hne : sd1.nextId ≠ sd2.nextId := by omega
  constructor
  · rw [hv1, hv2]
    intro hcontra
    injection hcontra with _ hid _
    exact hne hid
  · exact ⟨sd1.nextId, args1, sd2.nextId, args2, hv1, hv2, hne⟩

def c2wS : DIContainer :=
  register ⟨[], [], [], 0⟩ "svc" (.ctor 4) ⟨none, some [], none⟩

theorem c2_transient_freshness_witness :
    Value.obj 4 0 [] ≠ Value.obj 4 1 [] ∧
    ∃ (id1 : Nat) (args1 : List Value) (id2 : Nat) (args2 : List Value),
      Value.obj 4 0 [] = .obj 4 id1 args1 ∧ Value.obj 4 1 [] = .obj 4 id2 args2 ∧
        id1 ≠ id2 :=
  c2_transient_freshness c2wS { c2wS with nextId := 1 } { c2wS with nextId := 2 }
    "svc" ⟨.ctor 4, false, [], false⟩ 4 (.obj 4 0 []) (.obj 4 1 []) 1 1
    (by simp [c2wS, register, mapFind, mapSet])
    rfl rfl rfl
    (by simp [c2wS, register, resolve, createInstance, resolveDeps, mapFind, mapSet])
    (by simp [c2wS, register, resolve, createInstance, resolveDeps, mapFind, mapSet])

/-- The container refuting C2 as frozen: `x` is registered via plain
`register`, non-singleton, but its implementation is a plain pre-built
value. -/
def cexC2 : DIContainer :=
  register ⟨[], [], [], 0⟩ "x" (.value (.atom 7)) ⟨none, none, none⟩

/-- C2 as frozen is false on the code: `x` is a non-singleton plain
registration, yet two independent `resolve("x")` calls (the second from
the state the first left behind) both return the pre-built value
`atom 7` — identity-equal, with no dependency re-resolution. -/
theorem c2_transient_freshness_counterexample :
    mapFind cexC2.services "x" = some ⟨.value (.atom 7), false, [], false⟩ ∧
    resolve 1 cexC2 "x" = .ok (.atom 7) cexC2 ∧
    resolve 1 ((resolve 1 cexC2 "x").state) "x" =
      .ok (.atom 7) ((resolve 1 cexC2 "x").state) := by
  refine ⟨?_, ?_, ?_⟩
  · simp [cexC2, register, mapFind, mapSet]
  · simp [cexC2, register, resolve, createInstance, mapFind, mapSet]
  · simp [cexC2, register, resolve, createInstance, mapFind, mapSet,
      ResolveResult.state]

/-- C3: a name absent from both the singleton cache and the service store
— in particular one registered only in the factory table — makes
`resolve` fail with `ServiceNotRegistered` naming it (never returning a
value), and every error `resolve` ever returns is `ServiceNotRegistered`
for some transitively demanded name with no descriptor and no cache
entry. -/
theorem c3_missing_service (s : DIContainer) (name : String) (fuel : Nat)
    (hcache : mapFind s.singletons name = none)
    (hsvc : mapFind s.services name = none) :
    resolve (fuel + 1) s name = .error (.serviceNotRegistered name) s ∧
    (∀ tag deps,
      resolve (fuel + 1) (registerFactory s name tag deps) name =
        .error (.serviceNotRegistered name) (registerFactory s name tag deps)) ∧
    (∀ fuel' (s0 : DIContainer) (n0 : String) e s',
      resolve fuel' s0 n0 = .error e s' →
      ∃ m, e = .serviceNotRegistered m ∧ mapFind s'.services m = none ∧
        mapFind s'.singletons m = none) := by
  refine ⟨by simp [resolve, hcache, hsvc], ?_, ?_⟩
  · intro tag deps
    have h1 : mapFind (registerFactory s name tag deps).singletons name = none :=
      hcache
    have h2 : mapFind (registerFactory s name tag deps).services name = none :=
      hsvc
    simp [resolve, h1, h2]
  · intro fuel' s0 n0 e s' h
    exact resolve_error_sound h

theorem c3_missing_service_witness :
    resolve 1 (⟨[], [], [], 0⟩ : DIContainer) "doesNotExist" =
      .error (.serviceNotRegistered "doesNotExist") ⟨[], [], [], 0⟩ :=
  (c3_missing_service ⟨[], [], [], 0⟩ "doesNotExist" 0 rfl rfl).1

/-- C4: a service with constructible implementation and declared
dependencies `[a, b, c]` is constructed with exactly the values of `a`,
`b`, `c` — each obtained by a recursive `resolve` call, in declared
order, threading the state left to right — as its positional argument
list, in that order. -/
theorem c4_dependency_order (s s1 s2 s3 : DIContainer) (name a b c : String)
    (cfg : ServiceConfig) (tag : Nat) (va vb vc : Value) (fuel : Nat)
    (hcache : mapFind s.singletons name = none)
    (hsvc : mapFind s.services name = some cfg)
    (himpl : cfg.implementation = .ctor tag)
    (hdeps : cfg.dependencies = [a, b, c])
    (ha : resolve fuel s a = .ok va s1)
    (hb : resolve fuel s1 b = .ok vb s2)
    (hc : resolve fuel s2 c = .ok vc s3) :
    ∃ s4, resolve (fuel + 1) s name = .ok (.obj tag s3.nextId [va, vb, vc]) s4 := by
  have hD : resolveDeps fuel s [a, b, c] = .ok [va, vb, vc] s3 := by
    simp [resolveDeps, ha, hb, hc]
  cases hsing : cfg.singleton with
  | true =>
    refine ⟨{ s3 with
      nextId := s3.nextId + 1
      singletons := mapSet s3.singletons name (.obj tag s3.nextId [va, vb, vc]) },
      ?_⟩
    simp [resolve, hcache, hsvc, createInstance, himpl, hdeps, hD, hsing]
  | false =>
    refine ⟨{ s3 with nextId := s3.nextId + 1 }, ?_⟩
    simp [resolve, hcache, hsvc, createInstance, himpl, hdeps, hD, hsing]

def c4wS : DIContainer :=
  ⟨[("a", ⟨.value (.atom 1), false, [], false⟩),
    ("b", ⟨.value (.atom 2), false, [], false⟩),
    ("c", ⟨.value (.atom 3), false, [], false⟩),
    ("svc", ⟨.ctor 7, false, ["a", "b", "c"], false⟩)], [], [], 0⟩

theorem c4_dependency_order_witness :
    ∃ s4, resolve 2 c4wS "svc" =
      .ok (.obj 7 c4wS.nextId [.atom 1, .atom 2, .atom 3]) s4 :=
  c4_dependency_order c4wS c4wS c4wS c4wS "svc" "a" "b" "c"
    ⟨.ctor 7, false, ["a", "b", "c"], false⟩ 7 (.atom 1) (.atom 2) (.atom 3) 1
    rfl
    (by simp [c4wS, mapFind])
    rfl rfl
    (by simp [c4wS, resolve, createInstance, mapFind])
    (by simp [c4wS, resolve, createInstance, mapFind])
    (by simp [c4wS, resolve, createInstance, mapFind])

/-- C5: whenever the declared dependency graph restricted to the
demanded, non-cached names is acyclic with every such name registered or
cached (the `Resolvable` derivation), `resolve` terminates with a value
for sufficient fuel; and on the cyclic two-node graph (`A` ↔ `B`, neither
cached) the unguarded recursion exhausts every fuel bound — it never
returns and never raises a dedicated cycle error. -/
theorem c5_termination_and_cycles (s : DIContainer) (n : String) :
    (Resolvable s n → ∃ fuel v s', resolve fuel s n = .ok v s') ∧
    (∀ fuel, resolve fuel cycState "A" = .outOfFuel cycState) := by
  constructor
  · intro h
    exact resolve_terminates h s (extends_refl s)
  · intro fuel
    exact (cyc_diverges fuel).1

def c5wS : DIContainer :=
  registerSingleton
    (registerSingleton ⟨[], [], [], 0⟩ "config" (.value (.atom 1)) [])
    "logger" (.ctor 3) ["config"]

theorem c5_termination_and_cycles_witness :
    ∃ fuel v s', resolve fuel c5wS "logger" = .ok v s' :=
  (c5_termination_and_cycles c5wS "logger").1
    (Resolvable.ctorImpl "logger" ⟨.ctor 3, true, ["config"], false⟩ 3
      (by simp [c5wS, registerSingleton, register, mapFind, mapSet])
      rfl
      (by
        intro d hd
        simp at hd
        subst hd
        exact Resolvable.valueImpl "config" ⟨.value (.atom 1), true, [], false⟩
          (.atom 1)
          (by simp [c5wS, registerSingleton, register, mapFind, mapSet]) rfl))

/-- C6: `resolveFactory` raises `FactoryNotRegistered` (naming the
factory) exactly when the name is absent from the factory table — when
present, any error it propagates is a `ServiceNotRegistered` from the
shared `resolve` recursion over the declared dependencies; on success it
invokes the factory once with the resolved dependency values as
positional arguments and returns the result without storing it in any
cache (the final state only bumps the identity supply over the dependency
-resolution state), so two successive calls each invoke the factory anew
and return distinct results. -/
theorem c6_resolveFactory (s : DIContainer) (name : String) (fuel : Nat) :
    (mapFind s.factories name = none →
      resolveFactory fuel s name = .error (.factoryNotRegistered name) s) ∧
    (∀ fc args s', mapFind s.factories name = some fc →
      resolveDeps fuel s fc.dependencies = .ok args s' →
      resolveFactory fuel s name =
        .ok (.obj fc.tag s'.nextId args) { s' with nextId := s'.nextId + 1 }) ∧
    (∀ fc e s', mapFind s.factories name = some fc →
      resolveFactory fuel s name = .error e s' →
      ∃ m, e = .serviceNotRegistered m) ∧
    (∀ v1 s1 v2 s2 fuel2, resolveFactory fuel s name = .ok v1 s1 →
      resolveFactory fuel2 s1 name = .ok v2 s2 → v1 ≠ v2) := by
  refine ⟨?_, ?_, ?_, ?_⟩
  · intro hf
    simp [resolveFactory, hf]
  · intro fc args s' hf hd
    simp [resolveFactory, hf, hd]
  · intro fc e s' hf herr
    simp only [resolveFactory, hf] at herr
    cases hd : resolveDeps fuel s fc.dependencies with
    | ok args sd => simp [hd] at herr
    | error e' sd =>
      simp only [hd] at herr
      injection herr with he hs
      obtain ⟨m, hm, _, _⟩ := resolveDeps_error_sound hd
      exact ⟨m, he ▸ hm⟩
    | outOfFuel sd => simp [hd] at herr
  · intro v1 s1 v2 s2 fuel2 h1 h2
    cases hf : mapFind s.factories name with
    | none => simp [resolveFactory, hf] at h1
    | some fc =>
      simp only [resolveFactory, hf] at h1
      cases hd1 : resolveDeps fuel s fc.dependencies with
      | ok args1 sd1 =>
        simp only [hd1] at h1
        injection h1 with hv1 hs1
        have hfac1 : s1.factories = s.factories := by
          have hp := resolveDeps_pres fuel s fc.dependencies
          rw [hd1] at hp
          rw [← hs1]
          exact hp.2.1
        have hf1 : mapFind s1.factories name = some fc := by
          rw [hfac1]
          exact hf
        simp only [resolveFactory, hf1] at h2
        cases hd2 : resolveDeps fuel2 s1 fc.dependencies with
        | ok args2 sd2 =>
          simp only [hd2] at h2
          injection h2 with hv2 hs2
          have hn : s1.nextId ≤ sd2.nextId := by
            have hp2 := resolveDeps_pres fuel2 s1 fc.dependencies
            rw [hd2] at hp2
            exact hp2.2.2.1
          have hs1n : s1.nextId = sd1.nextId + 1 := by rw [← hs1]
          rw [← hv1, ← hv2]
          intro hcontra
          injection hcontra with _ hid _
          omega
        | error e sd2 => simp [hd2] at h2
        | outOfFuel sd2 => simp [hd2] at h2
      | error e sd1 => simp [hd1] at h1
      | outOfFuel sd1 => simp [hd1] at h1

def c6wS : DIContainer :=
  registerFactory
    (registerSingleton ⟨[], [], [], 0⟩ "config" (.value (.atom 1)) [])
    "mailer" 8 ["config"]

theorem c6_resolveFactory_witness :
    resolveFactory 1 c6wS "mailer" =
      .ok (.obj 8 0 [.atom 1])
        { c6wS with singletons := [("config", .atom 1)], nextId := 1 } :=
  (c6_resolveFactory c6wS "mailer" 1).2.1 ⟨8, ["config"]⟩ [.atom 1]
    { c6wS with singletons := [("config", .atom 1)] }
    (by simp [c6wS, registerFactory, registerSingleton, register, mapFind, mapSet])
    (by simp [c6wS, registerFactory, registerSingleton, register, resolveDeps,
      resolve, createInstance, mapFind, mapSet])

/-- C7: a descriptor holding a plain pre-built value resolves to that
value unchanged, and its declared dependencies are ignored — no
dependency is resolved or validated (the resulting state differs at most
by the singleton-cache entry for the name itself), so resolution succeeds
even when the declared dependencies were never registered. -/
theorem c7_value_descriptor (s : DIContainer) (name : String)
    (cfg : ServiceConfig) (v : Value) (fuel : Nat)
    (hcache : mapFind s.singletons name = none)
    (hsvc : mapFind s.services name = some cfg)
    (himpl : cfg.implementation = .value v) :
    resolve (fuel + 1) s name =
      .ok v (if cfg.singleton then
        { s with singletons := mapSet s.singletons name v } else s) := by
  cases hsing : cfg.singleton with
  | true => simp [resolve, hcache, hsvc, createInstance, himpl, hsing]
  | false => simp [resolve, hcache, hsvc, createInstance, himpl, hsing]

def c7wS : DIContainer :=
  register ⟨[], [], [], 0⟩ "config" (.value (.atom 5))
    ⟨none, some ["neverRegistered"], none⟩

theorem c7_value_descriptor_witness :
    resolve 1 c7wS "config" = .ok (.atom 5) c7wS := by
  have h := c7_value_descriptor c7wS "config"
    ⟨.value (.atom 5), false, ["neverRegistered"], false⟩ (.atom 5) 0
    rfl
    (by simp [c7wS, register, mapFind, mapSet])
    rfl
  simpa using h

/-- C8: after `clear()` the three stores are empty — `has` is false for
every name, `resolve` of any name fails with `ServiceNotRegistered`, and
the registered-services listing is empty. -/
theorem c8_clear_resets (s : DIContainer) (name : String) (fuel : Nat) :
    has (clear s) name = false ∧
    resolve (fuel + 1) (clear s) name =
      .error (.serviceNotRegistered name) (clear s) ∧
    getRegisteredServices (clear s) = [] := by
  refine ⟨rfl, ?_, rfl⟩
  simp [resolve, clear, mapFind]

/-- C9: `has` returns true exactly when the name has an entry in the
service store or the factory table; being a pure function of those two
stores it never fails, never mutates anything, and is insensitive to the
singleton cache — in particular it constructs nothing and adds no cache
entry for an unconstructed singleton. -/
theorem c9_has_frame (s : DIContainer) (name : String) :
    (has s name = true ↔
      (∃ cfg, mapFind s.services name = some cfg) ∨
      (∃ fc, mapFind s.factories name = some fc)) ∧
    (∀ cache : List (String × Value),
      has { s with singletons := cache } name = has s name) := by
  constructor
  · simp [has, Bool.or_eq_true, Option.isSome_iff_exists]
  · intro cache
    rfl

/-- C10: `register` rewrites only the service-store entry for its name —
the singleton cache and factory table are untouched and other service
entries keep their bindings — so a name whose singleton instance is
already cached keeps resolving to that cached instance even after being
re-registered with a different implementation or dependencies. -/
theorem c10_register_cache_frame (s : DIContainer) (name : String)
    (implementation : Implementation) (options : RegisterOptions) (v : Value)
    (fuel : Nat) :
    (register s name implementation options).singletons = s.singletons ∧
    (register s name implementation options).factories = s.factories ∧
    (∀ n, n ≠ name →
      mapFind (register s name implementation options).services n =
        mapFind s.services n) ∧
    (mapFind s.singletons name = some v →
      resolve (fuel + 1) (register s name implementation options) name =
        .ok v (register s name implementation options)) := by
  refine ⟨rfl, rfl, ?_, ?_⟩
  · intro n hn
    exact mapFind_mapSet_ne _ _ _ _ hn
  · intro hcache
    have h : mapFind (register s name implementation options).singletons name =
        some v := hcache
    simp [resolve, h]

def c10wS : DIContainer :=
  ⟨[("config", ⟨.value (.atom 1), true, [], false⟩)], [("config", .atom 1)], [], 0⟩

theorem c10_register_cache_frame_witness :
    resolve 1 (register c10wS "config" (.ctor 9) ⟨none, none, none⟩) "config" =
      .ok (.atom 1) (register c10wS "config" (.ctor 9) ⟨none, none, none⟩) :=
  (c10_register_cache_frame c10wS "config" (.ctor 9) ⟨none, none, none⟩
    (.atom 1) 0).2.2.2 (by simp [c10wS, mapFind])
